import Mathlib

/-!
Verification of the overlay-widget repository (src/public/overlay-widget.js and
src/dev-server.js) against its natural-language specification.

The JavaScript is shallowly embedded: each relevant function of the source is
translated into a Lean definition over an explicit model of JavaScript values
(`JVal`), HTTP responses (`Resp`), and the widget's mutable state (passed
explicitly).  Asynchronous functions are split at their `await` suspension
points into a synchronous entry phase and a continuation applied to the
resolved value, so that interleavings of concurrent calls can be stated as
explicit event sequences.
-/

namespace OverlayWidget

/-- Model of the fragment of JavaScript values flowing through the widget:
`undefined`, `null`, booleans, numbers (as rationals; the protocol only uses
finite numbers), strings, arrays and plain objects (field lists, first match
wins, matching JS property-lookup order for the JSON objects involved). -/
inductive JVal where
  | undef : JVal
  | null : JVal
  | bool : Bool → JVal
  | num : ℚ → JVal
  | str : String → JVal
  | arr : List JVal → JVal
  | obj : List (String × JVal) → JVal

/-- JavaScript truthiness for `JVal`: `undefined`, `null`, `false`, `0` and the
empty string are falsy; every other value (including empty arrays and empty
objects) is truthy.  (`NaN`, also falsy, does not occur in parsed JSON.) -/
def truthy : JVal → Bool
  | JVal.undef => false
  | JVal.null => false
  | JVal.bool b => b
  | JVal.num q => q != 0
  | JVal.str s => s != ""
  | JVal.arr _ => true
  | JVal.obj _ => true

/-- Property access `v.name`: on an object, the named field (or `undefined`
when absent); on every other value, `undefined`.  Call sites in the source
guard the access with a truthiness check, so access on `null`/`undefined`
(which would throw in JS) is never exercised. -/
def getField (v : JVal) (name : String) : JVal :=
  match v with
  | JVal.obj fields =>
    match fields.find? (fun p => p.1 == name) with
    | some p => p.2
    | none => JVal.undef
  | _ => JVal.undef

/-- `Array.isArray`. -/
def isArray : JVal → Bool
  | JVal.arr _ => true
  | _ => false

/-- Decimal rendering of a JS number; exact for integers.  Non-integral values
never reach a string context in the modelled code paths, so they fall back to
Lean's rational rendering. -/
def jsNumToString (q : ℚ) : String :=
  if q.den = 1 then toString q.num else toString q

mutual

/-- `String(v)` for the modelled value fragment (the message stored by
`new Error(v)`). -/
def jsValToString : JVal → String
  | JVal.undef => "undefined"
  | JVal.null => "null"
  | JVal.bool true => "true"
  | JVal.bool false => "false"
  | JVal.num q => jsNumToString q
  | JVal.str s => s
  | JVal.arr elems => jsArrToString elems
  | JVal.obj _ => "[object Object]"

/-- `Array.prototype.toString`: elements joined by commas, with `null` and
`undefined` elements rendered as the empty string. -/
def jsArrToString : List JVal → String
  | [] => ""
  | [v] => jsArrElemToString v
  | v :: rest => jsArrElemToString v ++ "," ++ jsArrToString rest

/-- A single element of an array being stringified. -/
def jsArrElemToString : JVal → String
  | JVal.undef => ""
  | JVal.null => ""
  | v => jsValToString v

end

/-- An HTTP response as the widget observes it: the `ok` flag of `fetch`'s
response and the outcome of `resp.json()` — `none` when the body is not valid
JSON (the promise rejects), `some v` when it parses to `v`. -/
structure Resp where
  ok : Bool
  body : Option JVal

/-- A JavaScript `try { body } catch (e) { handler }` where the body is
modelled in `Except` (thrown `Error` messages as `String`). -/
def tryCatch {α : Type} (body : Except String α) (handler : String → Except String α) :
    Except String α :=
  match body with
  | Except.ok a => Except.ok a
  | Except.error e => handler e

/-- The cached catalog value built at overlay-widget.js:127:
`offersCache = \x7b merchantId: data.merchantId, offers: active \x7d`. -/
structure Catalog where
  merchantId : JVal
  offers : List JVal

/-- Body of the inner `try` of `fetchOffersOnce`'s non-ok branch
(overlay-widget.js:117-120): await `resp.json()` (a rejected parse is a
throw), then `if (data && data.error) throw new Error(data.error)`. -/
def fetchNotOkTryBody (body : Option JVal) : Except String Unit :=
  match body with
  | none => Except.error "JSON_REJECTED"
  | some data =>
    if truthy data && truthy (getField data "error") then
      Except.error (jsValToString (getField data "error"))
    else
      Except.ok ()

/-- Body of the `try` of `fetchOffersOnce`'s ok branch
(overlay-widget.js:123-128): await `resp.json()`, throw `BAD_RESPONSE` when
`!data || !Array.isArray(data.offers)`, otherwise filter the offers to the
truthy-and-active ones and build the catalog value. -/
def fetchOkTryBody (body : Option JVal) : Except String Catalog :=
  match body with
  | none => Except.error "JSON_REJECTED"
  | some data =>
    if truthy data = false then Except.error "BAD_RESPONSE"
    else
      match getField data "offers" with
      | JVal.arr offers =>
        Except.ok
          { merchantId := getField data "merchantId"
            offers := offers.filter (fun o => truthy o && truthy (getField o "active")) }
      | _ => Except.error "BAD_RESPONSE"

/-- Response handling of `fetchOffersOnce` (overlay-widget.js:115-131), as a
function of the settled `fetch` response.  In the non-ok branch the inner
`try`'s throw of the parsed error code is caught by that same branch's
`catch (_) \x7b\x7d` and discarded, after which `REQUEST_FAILED` is thrown
unconditionally.  In the ok branch the `catch (e)` converts every throw of the
`try` body — a rejected `resp.json()` and the `BAD_RESPONSE` throw alike —
into `PARSE`. -/
def fetchOffersOnceResult (resp : Resp) : Except String Catalog :=
  if resp.ok then
    tryCatch (fetchOkTryBody resp.body) (fun _ => Except.error "PARSE")
  else
    let _discarded := fetchNotOkTryBody resp.body
    Except.error "REQUEST_FAILED"

/-- A non-success catalog response whose JSON body carries the server's
`UNAUTHORISED` error code, as in the spec's Scenario B. -/
def unauthorizedResp : Resp :=
  { ok := false, body := some (JVal.obj [("error", JVal.str "UNAUTHORISED")]) }

/-- A success catalog response whose parseable JSON body is `\x7b\x7d`: it has
no `offers` array. -/
def missingOffersResp : Resp :=
  { ok := true, body := some (JVal.obj []) }

/-! ## Catalog cache (C2)

`fetchOffersOnce` is an `async` function; its synchronous prefix runs up to
the `await fetch(...)` at overlay-widget.js:111, and the remainder
(lines 115-131) runs as a continuation when that call's own fetch settles.
The session state it reads and writes is the `offersCache` variable
(line 60).  `fetchesStarted` counts how many remote reads have been issued,
so that the single-flight property can be stated. -/

/-- The widget-session state touched by `fetchOffersOnce`, plus an
instrumentation counter of remote catalog reads issued. -/
structure CatState where
  offersCache : Option Catalog
  fetchesStarted : Nat

/-- What the synchronous prefix of a `fetchOffersOnce` call does: either it
returns the cached catalog immediately, or it starts a remote read and
suspends. -/
inductive FetchEntry where
  | cached : Catalog → FetchEntry
  | fetchStarted : FetchEntry

/-- Synchronous prefix of `fetchOffersOnce` (overlay-widget.js:104-111):
`if (offersCache) return offersCache;` and otherwise issue the `fetch`.
Nothing here records an in-flight read in session state, so the cache is the
only guard against duplicate reads. -/
def fetchOffersOnceEnter (s : CatState) : FetchEntry × CatState :=
  match s.offersCache with
  | some c => (FetchEntry.cached c, s)
  | none => (FetchEntry.fetchStarted, { s with fetchesStarted := s.fetchesStarted + 1 })

/-- Continuation of a `fetchOffersOnce` call once its own fetch has settled
(overlay-widget.js:112-131): classify the response and, on success, populate
`offersCache`. -/
def fetchOffersOnceResolve (resp : Resp) (s : CatState) :
    Except String Catalog × CatState :=
  match fetchOffersOnceResult resp with
  | Except.ok cat => (Except.ok cat, { s with offersCache := some cat })
  | Except.error e => (Except.error e, s)

/-- `n` consecutive synchronous entries of `fetchOffersOnce` (e.g. calls
interleaved while reads are outstanding, since an entry never waits):
the list of their immediate outcomes and the final state. -/
def fetchEntryTrace : Nat → CatState → List FetchEntry × CatState
  | 0, s => ([], s)
  | n + 1, s =>
    let (r, s1) := fetchOffersOnceEnter s
    let (rs, s2) := fetchEntryTrace n s1
    (r :: rs, s2)

/-- The session state before any catalog read. -/
def initialCatState : CatState :=
  { offersCache := none, fetchesStarted := 0 }

/-- A successful catalog response with one active offer, used to discharge the
hypotheses of `fetchOffersOnce_dedup_after_success` concretely. -/
def okCatalogResp : Resp :=
  { ok := true
    body := some (JVal.obj
      [("merchantId", JVal.str "demo-merchant-1"),
       ("offers", JVal.arr [JVal.obj [("id", JVal.str "offer-1"), ("active", JVal.bool true)]])]) }

/-! ## Error-code sanitization (C8) -/

/-- The fixed allow-list of known error codes (overlay-widget.js:600). -/
def knownCodes : List String :=
  ["NO_ITEMS", "OFFER_NOT_FOUND", "QTY_LIMIT", "CURRENCY_MISMATCH",
   "INVALID_MERCHANT", "UNAUTHORISED", "NETWORK", "REQUEST_FAILED",
   "PARSE", "BAD_RESPONSE"]

/-- One character of `String.prototype.toUpperCase` (the codes involved are
ASCII, where JS and `Char.toUpper` agree). -/
def jsUpperChar (c : Char) : Char := c.toUpper

/-- One character of `.replace(/[^A-Z0-9_]/g, i.e. every character that is not
an upper-case letter, digit or underscore becomes an underscore. -/
def maskChar (c : Char) : Char :=
  if (Char.ofNat 65 ≤ c ∧ c ≤ Char.ofNat 90) ∨ (Char.ofNat 48 ≤ c ∧ c ≤ Char.ofNat 57) ∨
      c = Char.ofNat 95 then
    c
  else
    Char.ofNat 95

/-- `sanitizeErrorCode` (overlay-widget.js:599-605): allow-listed codes pass
through; otherwise `String(msg || 'UNKNOWN')` is upper-cased, every character
outside `[A-Z0-9_]` is replaced by an underscore, and an empty result falls
back to `UNKNOWN`. -/
def sanitizeErrorCode (msg : String) : String :=
  if knownCodes.contains msg then msg
  else
    let base := if msg = "" then "UNKNOWN" else msg
    let up := String.mk (base.data.map (fun c => maskChar (jsUpperChar c)))
    if up = "" then "UNKNOWN" else up

/-- The sanitization mapping exactly as the spec sentence words it: empty or
absent identifier to the fixed `UNKNOWN` token; allow-listed codes to
themselves; any other string to its upper-casing with every character outside
letters/digits/underscore replaced by underscore. -/
def sanitizeErrorCodeSpec (msg : String) : String :=
  if msg = "" then "UNKNOWN"
  else if knownCodes.contains msg then msg
  else String.mk (msg.data.map (fun c => maskChar (jsUpperChar c)))

/-! ## Widget view state (C3, C6)

The mutable session variables of overlay-widget.js:59-64 that the view flow
touches: `isOpen`, the modal's `open` CSS class, `view`, `selected`,
`lastErrorMessage` and `lastOrder`.  DOM rendering is presentation and is not
modelled; the view the widget presents is the `view` variable last rendered. -/

/-- The `view` variable's values (overlay-widget.js:62). -/
inductive View where
  | catalog : View
  | checkout : View
  | confirm : View
  | error : View
  | loading : View
deriving DecidableEq

/-- The widget's session state for the view flow. -/
structure WidgetState where
  isOpen : Bool
  visible : Bool
  view : View
  selected : List (String × ℚ)
  lastErrorMessage : String
  lastOrder : Option JVal

/-- The state right after the script initialises (overlay-widget.js:59-65). -/
def initialWidgetState : WidgetState :=
  { isOpen := false, visible := false, view := View.catalog, selected := [],
    lastErrorMessage := "", lastOrder := none }

/-- The view-assignment effect of `setView` (overlay-widget.js:536-570): the
`view` variable is set and the matching render runs; no other session state
changes synchronously. -/
def setViewOnly (v : View) (s : WidgetState) : WidgetState :=
  { s with view := v }

/-- `openModal` (overlay-widget.js:572-578): when `isOpen` is already true the
modal is merely re-shown — no `setView` call, so whatever view was last
rendered stays; only on the first ever open does the widget enter `catalog`
(and trigger the catalog read and a health probe). -/
def openModal (s : WidgetState) : WidgetState :=
  if s.isOpen then { s with visible := true }
  else setViewOnly View.catalog { s with isOpen := true, visible := true }

/-- `closeModal` (overlay-widget.js:580-583): removes the `open` class only.
`isOpen`, `view`, `selected`, `lastOrder` are all left untouched. -/
def closeModal (s : WidgetState) : WidgetState :=
  { s with visible := false }

/-- `submitPurchase`'s classification of the settled purchase response
(overlay-widget.js:144-157): a rejected `resp.json()` throws `PARSE` from the
catch; then a non-ok status throws the body's error code when present and
`REQUEST_FAILED` otherwise; then an ok status whose body carries a truthy
`error` field still throws that code; otherwise the parsed body is the
order. -/
def submitPurchaseResult (resp : Resp) : Except String JVal :=
  match resp.body with
  | none => Except.error "PARSE"
  | some data =>
    if resp.ok = false then
      if truthy data && truthy (getField data "error") then
        Except.error (jsValToString (getField data "error"))
      else Except.error "REQUEST_FAILED"
    else if truthy data && truthy (getField data "error") then
      Except.error (jsValToString (getField data "error"))
    else Except.ok data

/-- The submit continuation in `renderCheckout` (overlay-widget.js:506-512):
on success store the order and enter `confirm`; on failure record
`e.message` (falling back to `UNKNOWN` when empty) and enter `error`. -/
def submitContinuation (s : WidgetState) (resp : Resp) : WidgetState :=
  match submitPurchaseResult resp with
  | Except.ok res => setViewOnly View.confirm { s with lastOrder := some res }
  | Except.error msg =>
    setViewOnly View.error
      { s with lastErrorMessage := if msg = "" then "UNKNOWN" else msg }

/-- The code token the error view displays (overlay-widget.js:543-544): the
sanitized `lastErrorMessage`. -/
def displayedErrorCode (s : WidgetState) : String :=
  sanitizeErrorCode s.lastErrorMessage

/-- A session state in the `confirm` view, reached by a concrete trace: first
open, two increments of offer-1 (see the selection model below), checkout,
and a successful purchase submission. -/
def confirmedState : WidgetState :=
  let s1 := openModal initialWidgetState
  let s2 := { s1 with selected := [("offer-1", (2 : ℚ))] }
  let s3 := setViewOnly View.checkout s2
  submitContinuation s3
    { ok := true, body := some (JVal.obj [("orderId", JVal.str "ord-1")]) }

/-! ## Health monitor (C5)

`runHealthCheck` (overlay-widget.js:336-360) is split at its `await fetch`:
the synchronous prefix sets the shared `health` record to `checking`, and the
continuation — run when that probe's own fetch settles — writes the final
status.  Each trigger creates its own `AbortController` and timeout; nothing
links a newer trigger to an older probe's controller, so starting a new probe
never cancels an outstanding one, and each completion writes the shared
record whenever it happens to arrive.  (A timeout expiry aborts only the
probe's own fetch, surfacing as its transport error.)  The non-ok completion
path contains a further `await resp.json()`; its two state writes are
modelled as one atomic completion, which is exact for the transport-error and
ok paths used in the theorems below. -/

/-- The `health.status` values (overlay-widget.js:65). -/
inductive HealthStatus where
  | idle : HealthStatus
  | checking : HealthStatus
  | ok : HealthStatus
  | error : HealthStatus
deriving DecidableEq

/-- The shared `health` record. -/
structure Health where
  status : HealthStatus
  code : String
  last : Nat
deriving DecidableEq

/-- How a probe's fetch settles: a transport failure (network error or the
probe's own 8s abort), or a response with its ok flag and parsed body. -/
inductive ProbeOutcome where
  | transportError : ProbeOutcome
  | response : Bool → Option JVal → ProbeOutcome

/-- Synchronous prefix of `runHealthCheck` (overlay-widget.js:337):
`health.status = 'checking'; health.code = ''; health.last = Date.now()`. -/
def runHealthCheckStart (now : Nat) (_h : Health) : Health :=
  { status := HealthStatus.checking, code := "", last := now }

/-- Continuation of one probe once its fetch settles
(overlay-widget.js:345-359): a transport failure yields `error`/`NETWORK`;
an ok response yields `ok`; a non-ok response yields `error` with the body's
error code when parseable and truthy, else `REQUEST_FAILED` (the fallback
reads the shared `health.code`, which the model threads through). -/
def runHealthCheckComplete (now : Nat) (o : ProbeOutcome) (h : Health) : Health :=
  match o with
  | ProbeOutcome.transportError =>
    { status := HealthStatus.error, code := "NETWORK", last := now }
  | ProbeOutcome.response true _ =>
    { status := HealthStatus.ok, code := "", last := now }
  | ProbeOutcome.response false body =>
    let code :=
      match body with
      | some data =>
        if truthy data && truthy (getField data "error") then
          jsValToString (getField data "error")
        else h.code
      | none => h.code
    { status := HealthStatus.error
      code := if code = "" then "REQUEST_FAILED" else code
      last := now }

/-- The status a completion writes, independent of the prior record. -/
def probeStatus : ProbeOutcome → HealthStatus
  | ProbeOutcome.transportError => HealthStatus.error
  | ProbeOutcome.response true _ => HealthStatus.ok
  | ProbeOutcome.response false _ => HealthStatus.error

/-! ## Selection model (C7)

The quantity controls bound in `renderCatalog` (overlay-widget.js:405-435)
mutate the `selected` map one offer at a time; the handlers of distinct offer
ids are independent, so the per-offer entry is modelled as an `Option ℚ`
(`none` = absent).  A JS number is modelled as `Option ℚ`, `none` standing
for `NaN` (and for the non-finite values, which `Number.isFinite` likewise
rejects). -/

/-- The whitespace characters stripped by `String.prototype.trim` (the ASCII
ones plus no-break space; the exotic Unicode space characters are outside the
modelled fragment). -/
def jsWhitespace (c : Char) : Bool :=
  c = Char.ofNat 32 || c = Char.ofNat 9 || c = Char.ofNat 10 || c = Char.ofNat 13 ||
    c = Char.ofNat 11 || c = Char.ofNat 12 || c = Char.ofNat 160

/-- `String.prototype.trim`: leading and trailing whitespace removed. -/
def jsTrim (s : String) : String :=
  String.mk (((s.data.dropWhile jsWhitespace).reverse.dropWhile jsWhitespace).reverse)

/-- `'0' ≤ c ≤ '9'`. -/
def isDigitChar (c : Char) : Bool :=
  (Char.ofNat 48 ≤ c) && (c ≤ Char.ofNat 57)

/-- Value of a digit list read in base 10. -/
def digitsToNat (cs : List Char) : Nat :=
  cs.foldl (fun n c => 10 * n + (c.toNat - 48)) 0

/-- An unsigned JS decimal literal: digits, optionally followed by a dot and
further digits, with at least one digit present. -/
def parseUnsignedDec (cs : List Char) : Option ℚ :=
  let intPart := cs.takeWhile isDigitChar
  let rest := cs.dropWhile isDigitChar
  match rest with
  | [] => if intPart = [] then none else some (digitsToNat intPart : ℚ)
  | c :: fracPart =>
    if c = Char.ofNat 46 ∧ fracPart.all isDigitChar ∧ (intPart ≠ [] ∨ fracPart ≠ []) then
      some ((digitsToNat intPart : ℚ) +
        (digitsToNat fracPart : ℚ) / ((10 : ℚ) ^ fracPart.length))
    else none

/-- `Number(str)` on an already-trimmed string, for the decimal fragment of
JS numeric literals: the empty string is `0`, an optional sign precedes an
unsigned decimal, and anything else is `NaN` (`none`).  Exotic literal forms
(exponents, hex/octal/binary, `Infinity`) are outside the modelled fragment;
the invariant theorem below therefore quantifies over the parsed value, so it
covers every number `Number` can produce. -/
def jsNumberParse (s : String) : Option ℚ :=
  match s.data with
  | [] => some 0
  | c :: rest =>
    if c = Char.ofNat 45 then (parseUnsignedDec rest).map (fun q => -q)
    else if c = Char.ofNat 43 then parseUnsignedDec rest
    else parseUnsignedDec (c :: rest)

/-- One user action on a single offer's quantity controls. -/
inductive SelAction where
  | increment : SelAction
  | decrement : SelAction
  | setQuantity : Option ℚ → SelAction

/-- The `safe` local of the quantity-input handler (overlay-widget.js:429):
`Number.isFinite(v) && v >= 0 ? v : 0`, with `none` standing for a
non-finite `v`. -/
def jsSafeQty : Option ℚ → ℚ
  | some q => if 0 ≤ q then q else 0
  | none => 0

/-- The per-offer quantity transition (overlay-widget.js:405-435).
`maxPerOrder` is `some m` exactly when `Number.isFinite(offer.maxPerOrder)`;
a `setQuantity` action carries `Number(String(inp.value).trim())` as an
`Option ℚ`.
  - increment: `next = Math.min(qty + 1, finite max ? max : qty + 1)`, then
    `selected.set(id, next)` unconditionally;
  - decrement: `next = Math.max(0, qty - 1)`; delete the entry at 0, else set;
  - setQuantity: `bounded = Math.min(safe, finite max ? max : safe)`; delete
    the entry at 0, else set. -/
def selStep (maxPerOrder : Option ℚ) (s : Option ℚ) : SelAction → Option ℚ
  | SelAction.increment =>
    let qty := s.getD 0
    let next := min (qty + 1)
      (match maxPerOrder with
       | some m => m
       | none => qty + 1)
    some next
  | SelAction.decrement =>
    let qty := s.getD 0
    let next := max 0 (qty - 1)
    if next = 0 then none else some next
  | SelAction.setQuantity v =>
    let safe := jsSafeQty v
    let m :=
      match maxPerOrder with
      | some m => m
      | none => safe
    let bounded := min safe m
    if bounded = 0 then none else some bounded

/-- The quantity-input change handler on the raw typed string
(overlay-widget.js:424-435). -/
def setQuantityRaw (maxPerOrder : Option ℚ) (raw : String) (s : Option ℚ) : Option ℚ :=
  selStep maxPerOrder s (SelAction.setQuantity (jsNumberParse (jsTrim raw)))

/-- The per-offer selection invariant: a stored quantity is positive and at
most the offer's max-per-order when one is defined. -/
def SelInv (maxPerOrder : Option ℚ) (s : Option ℚ) : Prop :=
  ∀ q, s = some q → 0 < q ∧ ∀ m, maxPerOrder = some m → q ≤ m

/-! ## Static file serving of the dev server (C9)

`serveStatic` (dev-server.js:51-77) decodes the request path with
`decodeURIComponent`, resolves it against the public root with
`path.normalize(path.join(PUBLIC_DIR, pathname))`, and rejects with 403 when
the result does not `startsWith(PUBLIC_DIR)`; otherwise it stats and streams
the resolved file (or its `index.html` for a directory — a path that stays
within the root either way).  Node string/path functions are modelled
character-wise: `path.join(a, b)` followed by `path.normalize` equals the
POSIX normalization of `a ++ "/" ++ b` for the absolute root involved
(normalization here drops a trailing slash, which `startsWith` treatment is
insensitive to). -/

/-- Value of a hexadecimal digit, case-insensitive. -/
def hexVal (c : Char) : Option Nat :=
  if isDigitChar c then some (c.toNat - 48)
  else if Char.ofNat 65 ≤ c ∧ c ≤ Char.ofNat 70 then some (c.toNat - 55)
  else if Char.ofNat 97 ≤ c ∧ c ≤ Char.ofNat 102 then some (c.toNat - 87)
  else none

/-- `decodeURIComponent` on the single-byte fragment: each `%XX` with hex
digits and value below 0x80 becomes that character; a malformed escape throws
`URIError` (`none`); multi-byte UTF-8 escape sequences are outside the
modelled fragment. -/
def percentDecodeChars : List Char → Option (List Char)
  | [] => some []
  | c :: h1 :: h2 :: rest =>
    if c = Char.ofNat 37 then
      match hexVal h1, hexVal h2 with
      | some v1, some v2 =>
        if 16 * v1 + v2 < 128 then
          (percentDecodeChars rest).map (fun ds => Char.ofNat (16 * v1 + v2) :: ds)
        else none
      | _, _ => none
    else
      (percentDecodeChars (h1 :: h2 :: rest)).map (fun ds => c :: ds)
  | c :: rest =>
    if c = Char.ofNat 37 then none
    else (percentDecodeChars rest).map (fun ds => c :: ds)

/-- Split a character list at every `/`. -/
def splitSegsChars : List Char → List (List Char)
  | [] => [[]]
  | c :: rest =>
    let r := splitSegsChars rest
    if c = Char.ofNat 47 then [] :: r
    else
      match r with
      | s :: ss => (c :: s) :: ss
      | [] => [[c]]

/-- POSIX path-segment normalization for an absolute path: empty and `.`
segments vanish, `..` removes the previous segment (and is dropped at the
root). -/
def normSegsAbs (segs : List (List Char)) : List (List Char) :=
  segs.foldl
    (fun acc seg =>
      if seg = [] ∨ seg = ['.'] then acc
      else if seg = ['.', '.'] then acc.dropLast
      else acc ++ [seg])
    []

/-- Reassemble an absolute path from its normalized segments. -/
def joinAbs (segs : List (List Char)) : List Char :=
  segs.foldl (fun acc seg => acc ++ Char.ofNat 47 :: seg) []

/-- `path.normalize` of an absolute POSIX path, character-wise. -/
def normalizeAbs (cs : List Char) : List Char :=
  joinAbs (normSegsAbs (splitSegsChars cs))

/-- The outcome of `serveStatic` relevant to the traversal claim: a thrown
`URIError` from decoding, the 403 rejection, or streaming the resolved
path. -/
inductive ServeOutcome where
  | decodeError : ServeOutcome
  | forbidden : ServeOutcome
  | serve : String → ServeOutcome
deriving DecidableEq

/-- `serveStatic` (dev-server.js:51-77) reduced to the path computation:
decode the URL path, map `/` to `/index.html`, resolve against the root, and
serve unless the resolved path fails the `startsWith(PUBLIC_DIR)` check. -/
def serveStaticPath (root pathname0 : String) : ServeOutcome :=
  match percentDecodeChars pathname0.data with
  | none => ServeOutcome.decodeError
  | some pn =>
    let pathname := if pn = [Char.ofNat 47] then "/index.html".data else pn
    let filePath := normalizeAbs (root.data ++ Char.ofNat 47 :: pathname)
    if List.isPrefixOf root.data filePath then
      ServeOutcome.serve (String.mk filePath)
    else
      ServeOutcome.forbidden

/-- A path lies within the root directory: it is the root itself or extends
it below a separator. -/
def withinRoot (root p : String) : Bool :=
  p == root || List.isPrefixOf (root.data ++ [Char.ofNat 47]) p.data

/-! ## HTML escaping (C10)

`escapeHtml` (overlay-widget.js:590-597) applies five global single-character
regex replacements in sequence: `&` first, then `<`, `>`, `"`, `'`.  A global
replacement of a single-character pattern is exactly a character-wise
flat-map. -/

/-- The apostrophe character. -/
def squote : Char := Char.ofNat 39

/-- The double-quote character. -/
def dquote : Char := Char.ofNat 34

/-- `.replace(/pat/g, rep)` for a single-character pattern `pat`. -/
def jsReplaceChar (pat : Char) (rep : List Char) (s : List Char) : List Char :=
  s.flatMap (fun c => if c = pat then rep else [c])

/-- `escapeHtml`'s five replacement passes on the character list (the
`String(str || '')` coercion makes the input a string, which the argument
already is here). -/
def escapeHtmlData (s : List Char) : List Char :=
  jsReplaceChar squote "&#039;".data
    (jsReplaceChar dquote "&quot;".data
      (jsReplaceChar '>' "&gt;".data
        (jsReplaceChar '<' "&lt;".data
          (jsReplaceChar '&' "&amp;".data s))))

/-- `escapeHtml` (overlay-widget.js:590-597). -/
def escapeHtml (s : String) : String :=
  String.mk (escapeHtmlData s.data)

/-- The per-character effect the five passes compose to: each of the five
special characters becomes its HTML entity, every other character is kept. -/
def escChar (c : Char) : List Char :=
  if c = '&' then "&amp;".data
  else if c = '<' then "&lt;".data
  else if c = '>' then "&gt;".data
  else if c = dquote then "&quot;".data
  else if c = squote then "&#039;".data
  else [c]

/-- A character that may appear raw in escaped output: anything but `<`, `>`,
the double quote and the apostrophe. -/
def noRawChar (c : Char) : Bool :=
  !(c = '<' || c = '>' || c = dquote || c = squote)

/-- The five entity tails that may legitimately follow an ampersand in
escaped output. -/
def entityTails : List (List Char) :=
  ["amp;".data, "lt;".data, "gt;".data, "quot;".data, "#039;".data]

/-- Every ampersand in the list starts one of the five entities. -/
def ampersandsEscaped : List Char → Bool
  | [] => true
  | c :: rest =>
    if c = '&' then
      (entityTails.any (fun e => List.isPrefixOf e rest)) && ampersandsEscaped rest
    else
      ampersandsEscaped rest

/-! ## Theorems -/

/-- C1: the claim says a non-success catalog response with a parseable error
code in the body makes `fetchOffersOnce` fail with exactly that code.  The
code disagrees: the pass-through `throw new Error(data.error)` at
overlay-widget.js:119 sits inside the same `try` whose `catch (_) \x7b\x7d`
swallows it, so on the 401 body with code `UNAUTHORISED` the call fails with
`REQUEST_FAILED`, not `UNAUTHORISED`. -/
theorem fetchOffersOnce_swallows_error_code :
    fetchOffersOnceResult unauthorizedResp = Except.error "REQUEST_FAILED" ∧
      fetchOffersOnceResult unauthorizedResp ≠ Except.error "UNAUTHORISED" := by
  constructor
  · rfl
  · intro h
    simp [fetchOffersOnceResult, unauthorizedResp] at h

/-- C4: the claim says a success response whose parseable body lacks an offer
array fails with `BAD_RESPONSE`, with `PARSE` reserved for unparseable bodies.
The code disagrees: the `throw new Error('BAD_RESPONSE')` at
overlay-widget.js:125 is caught by the enclosing `catch (e)` at line 129,
which rethrows `PARSE`, so the body `\x7b\x7d` produces `PARSE`. -/
theorem fetchOffersOnce_bad_response_becomes_parse :
    fetchOffersOnceResult missingOffersResp = Except.error "PARSE" ∧
      fetchOffersOnceResult missingOffersResp ≠ Except.error "BAD_RESPONSE" := by
  constructor
  · rfl
  · intro h
    simp [fetchOffersOnceResult, missingOffersResp, tryCatch, fetchOkTryBody,
      truthy, getField] at h

/-- C2: the claim says a second `fetchOffersOnce` call made while the first
call's read is still outstanding does not start a second remote read.  The
code disagrees: the cache is still empty when the second call enters, so the
second call issues its own fetch — two calls before any resolution mean two
remote reads. -/
theorem fetchOffersOnce_not_single_flight :
    (fetchOffersOnceEnter initialCatState).1 = FetchEntry.fetchStarted ∧
      (fetchOffersOnceEnter (fetchOffersOnceEnter initialCatState).2).1 =
        FetchEntry.fetchStarted ∧
      (fetchOffersOnceEnter (fetchOffersOnceEnter initialCatState).2).2.fetchesStarted = 2 := by
  refine ⟨rfl, rfl, rfl⟩

/-- C2 (amended): deduplication happens only through the populated cache.
Once `offersCache` holds a catalog `c`, any number of further calls return
`c` immediately and start no remote read; and a successful resolution is what
populates the cache. -/
theorem fetchOffersOnce_dedup_after_success :
    (∀ (s : CatState) (c : Catalog), s.offersCache = some c →
      ∀ n : Nat,
        (fetchEntryTrace n s).2.fetchesStarted = s.fetchesStarted ∧
          ∀ r ∈ (fetchEntryTrace n s).1, r = FetchEntry.cached c) ∧
    (∀ (resp : Resp) (cat : Catalog) (s : CatState),
      fetchOffersOnceResult resp = Except.ok cat →
        (fetchOffersOnceResolve resp s).2.offersCache = some cat) := by
  constructor
  · intro s c hc n
    induction n generalizing s with
    | zero => simp [fetchEntryTrace]
    | succ n ih =>
      have henter : fetchOffersOnceEnter s = (FetchEntry.cached c, s) := by
        simp [fetchOffersOnceEnter, hc]
      have := ih s hc
      simp [fetchEntryTrace, henter, this.1]
      intro r hr
      exact this.2 r hr
  · intro resp cat s h
    simp [fetchOffersOnceResolve, h]

/-- Witness for `fetchOffersOnce_dedup_after_success`: after the read of
`okCatalogResp` resolves, two further calls both return the cached catalog
and start no fetch. -/
theorem fetchOffersOnce_dedup_after_success_witness :
    (fetchEntryTrace 2 (fetchOffersOnceResolve okCatalogResp initialCatState).2).2.fetchesStarted =
        (fetchOffersOnceResolve okCatalogResp initialCatState).2.fetchesStarted ∧
      (fetchOffersOnceResolve okCatalogResp initialCatState).2.offersCache ≠ none := by
  constructor
  · exact (fetchOffersOnce_dedup_after_success.1
      (fetchOffersOnceResolve okCatalogResp initialCatState).2
      { merchantId := JVal.str "demo-merchant-1"
        offers := [JVal.obj [("id", JVal.str "offer-1"), ("active", JVal.bool true)]] }
      rfl 2).1
  · have := fetchOffersOnce_dedup_after_success.2 okCatalogResp
      { merchantId := JVal.str "demo-merchant-1"
        offers := [JVal.obj [("id", JVal.str "offer-1"), ("active", JVal.bool true)]] }
      initialCatState rfl
    rw [this]
    intro h
    cases h

/-- C8: `sanitizeErrorCode` realises the spec's mapping pointwise, and the
three exemplar values from the spec's testable properties hold. -/
theorem sanitizeErrorCode_spec :
    (∀ msg : String, sanitizeErrorCode msg = sanitizeErrorCodeSpec msg) ∧
      sanitizeErrorCode "weird code!" = "WEIRD_CODE_" ∧
      sanitizeErrorCode "" = "UNKNOWN" ∧
      sanitizeErrorCode "NETWORK" = "NETWORK" := by
  refine ⟨?_, by decide, by decide, by decide⟩
  intro msg
  by_cases hempty : msg = ""
  · subst hempty
    decide
  · by_cases hknown : knownCodes.contains msg
    · have hmem : msg ∈ knownCodes := by simpa using hknown
      simp [sanitizeErrorCode, sanitizeErrorCodeSpec, hempty, hmem]
    · have hdata : msg.data ≠ [] := by
        intro h
        apply hempty
        cases msg with
        | mk l =>
          cases h
          rfl
      have hmk : String.mk (msg.data.map (fun c => maskChar (jsUpperChar c))) ≠ "" := by
        intro h
        apply hdata
        have : (String.mk (msg.data.map (fun c => maskChar (jsUpperChar c)))).data =
            ("" : String).data := by rw [h]
        simp at this
        exact this
      simp [sanitizeErrorCode, sanitizeErrorCodeSpec, hempty, hknown, hmk]

/-- C3: the claim says that after dismissing the widget from the confirm view
the next open shows the catalog view.  The code disagrees: `closeModal` never
resets `isOpen`, so `openModal` takes its `isOpen` branch, calls no
`setView`, and the widget re-presents the still-current `confirm` view. -/
theorem reopen_after_confirm_shows_confirm :
    confirmedState.view = View.confirm ∧
      (openModal (closeModal confirmedState)).view = View.confirm ∧
      (openModal (closeModal confirmedState)).view ≠ View.catalog := by
  refine ⟨rfl, rfl, ?_⟩
  intro h
  cases h

/-- C3 (amended): on any open after the first (`isOpen` true), the widget
re-presents whatever view was last set — including `confirm` — and the close
and reopen leave the selection mapping unchanged. -/
theorem reopen_preserves_view_and_selection :
    ∀ s : WidgetState, s.isOpen = true →
      (openModal (closeModal s)).view = s.view ∧
        (openModal (closeModal s)).selected = s.selected ∧
        (openModal (closeModal s)).visible = true := by
  intro s h
  simp [openModal, closeModal, h]

/-- Witness for `reopen_preserves_view_and_selection` at the concrete
post-purchase state. -/
theorem reopen_preserves_view_and_selection_witness :
    (openModal (closeModal confirmedState)).selected = confirmedState.selected ∧
      (openModal (closeModal confirmedState)).visible = true := by
  have h := reopen_preserves_view_and_selection confirmedState rfl
  exact ⟨h.2.1, h.2.2⟩

/-- C6: a purchase response with success status whose body carries a truthy
string error code `c` is treated as a failure with exactly that code: the
view becomes `error`, the displayed token is the sanitized `c` (equal to `c`
itself for allow-listed codes such as `QTY_LIMIT`), and `lastOrder` is
unchanged; moreover on every failing submission path whatsoever `lastOrder`
is unchanged, and only a successful purchase overwrites it. -/
theorem submit_error_body_is_failure :
    (∀ (s : WidgetState) (fields : List (String × JVal)) (c : String),
      c ≠ "" →
      getField (JVal.obj fields) "error" = JVal.str c →
      submitPurchaseResult { ok := true, body := some (JVal.obj fields) } =
          Except.error c ∧
        (submitContinuation s { ok := true, body := some (JVal.obj fields) }).view =
          View.error ∧
        (submitContinuation s { ok := true, body := some (JVal.obj fields) }).lastOrder =
          s.lastOrder ∧
        displayedErrorCode (submitContinuation s { ok := true, body := some (JVal.obj fields) }) =
          sanitizeErrorCode c ∧
        (knownCodes.contains c = true →
          displayedErrorCode (submitContinuation s { ok := true, body := some (JVal.obj fields) }) = c)) ∧
    (∀ (s : WidgetState) (resp : Resp) (e : String),
      submitPurchaseResult resp = Except.error e →
        (submitContinuation s resp).view = View.error ∧
          (submitContinuation s resp).lastOrder = s.lastOrder) ∧
    (∀ (s : WidgetState) (resp : Resp) (res : JVal),
      submitPurchaseResult resp = Except.ok res →
        (submitContinuation s resp).lastOrder = some res) := by
  refine ⟨?_, ?_, ?_⟩
  · intro s fields c hc hfield
    have hres : submitPurchaseResult { ok := true, body := some (JVal.obj fields) } =
        Except.error c := by
      simp [submitPurchaseResult, hfield, truthy, hc, jsValToString]
    refine ⟨hres, ?_, ?_, ?_, ?_⟩
    · simp [submitContinuation, hres, setViewOnly]
    · simp [submitContinuation, hres, setViewOnly, hc]
    · simp [submitContinuation, hres, setViewOnly, displayedErrorCode, hc]
    · intro hknown
      have hmem : c ∈ knownCodes := by simpa using hknown
      simp [submitContinuation, hres, setViewOnly, displayedErrorCode, hc,
        sanitizeErrorCode, hmem]
  · intro s resp e h
    simp [submitContinuation, h, setViewOnly]
  · intro s resp res h
    simp [submitContinuation, h, setViewOnly]

/-- Witness for `submit_error_body_is_failure`: the spec's Scenario C — a
success-status purchase response with body carrying `QTY_LIMIT`. -/
theorem submit_error_body_is_failure_witness :
    submitPurchaseResult
        { ok := true, body := some (JVal.obj [("error", JVal.str "QTY_LIMIT")]) } =
      Except.error "QTY_LIMIT" ∧
    displayedErrorCode
        (submitContinuation initialWidgetState
          { ok := true, body := some (JVal.obj [("error", JVal.str "QTY_LIMIT")]) }) =
      "QTY_LIMIT" ∧
    (submitContinuation initialWidgetState
        { ok := true, body := some (JVal.obj [("error", JVal.str "QTY_LIMIT")]) }).lastOrder =
      none := by
  have h := submit_error_body_is_failure.1 initialWidgetState
    [("error", JVal.str "QTY_LIMIT")] "QTY_LIMIT" (by decide) rfl
  exact ⟨h.1, h.2.2.2.2 (by decide), h.2.2.1⟩

/-- C5: the claim says a trigger while a probe is outstanding supersedes it,
so the superseded probe's outcome never overwrites the newer probe's status.
The code disagrees: in the trace below, probe 1 starts, probe 2 starts while
probe 1 is still in flight, probe 2's fetch resolves ok (status `ok`), and
then probe 1's fetch fails — and its completion overwrites the status with
`error`/`NETWORK`. -/
theorem health_superseded_probe_overwrites :
    (runHealthCheckComplete 3 (ProbeOutcome.response true none)
        (runHealthCheckStart 2 (runHealthCheckStart 1
          { status := HealthStatus.idle, code := "", last := 0 }))).status =
      HealthStatus.ok ∧
    (runHealthCheckComplete 4 ProbeOutcome.transportError
        (runHealthCheckComplete 3 (ProbeOutcome.response true none)
          (runHealthCheckStart 2 (runHealthCheckStart 1
            { status := HealthStatus.idle, code := "", last := 0 })))).status =
      HealthStatus.error ∧
    (runHealthCheckComplete 4 ProbeOutcome.transportError
        (runHealthCheckComplete 3 (ProbeOutcome.response true none)
          (runHealthCheckStart 2 (runHealthCheckStart 1
            { status := HealthStatus.idle, code := "", last := 0 })))).code =
      "NETWORK" := by
  refine ⟨rfl, rfl, rfl⟩

/-- C5 (amended): no supersession exists — every probe completion
unconditionally overwrites `health.status`, so after any non-empty sequence
of completions the status is the one written by the last completion to
arrive, which may belong to an older, logically superseded probe. -/
theorem health_last_completion_wins :
    ∀ (h : Health) (os : List ProbeOutcome) (hne : os ≠ []),
      ((os.foldl (fun acc o => runHealthCheckComplete 0 o acc) h).status) =
        probeStatus (os.getLast hne) := by
  intro h os
  induction os generalizing h with
  | nil => intro hne; exact absurd rfl hne
  | cons o rest ih =>
    intro hne
    cases rest with
    | nil =>
      cases o with
      | transportError => rfl
      | response ok body => cases ok <;> rfl
    | cons o2 rest2 =>
      have := ih (runHealthCheckComplete 0 o h) (by simp)
      simpa [List.foldl, List.getLast] using this

/-- Witness for `health_last_completion_wins`: a single failing completion on
the idle record yields the `error` status. -/
theorem health_last_completion_wins_witness :
    (([ProbeOutcome.transportError].foldl
        (fun acc o => runHealthCheckComplete 0 o acc)
        { status := HealthStatus.idle, code := "", last := 0 }).status) =
      probeStatus ([ProbeOutcome.transportError].getLast (by simp)) :=
  health_last_completion_wins
    { status := HealthStatus.idle, code := "", last := 0 }
    [ProbeOutcome.transportError] (by simp)

theorem jsSafeQty_nonneg (v : Option ℚ) : 0 ≤ jsSafeQty v := by
  cases v with
  | none => simp [jsSafeQty]
  | some q =>
    by_cases h0 : 0 ≤ q
    · rw [jsSafeQty, if_pos h0]
      exact h0
    · simp [jsSafeQty, h0]

theorem selStep_preserves (mo : Option ℚ) (hmax : ∀ m, mo = some m → 0 < m)
    (s : Option ℚ) (hs : SelInv mo s) (a : SelAction) :
    SelInv mo (selStep mo s a) := by
  have hq0 : 0 ≤ s.getD 0 := by
    cases s with
    | none => simp
    | some q0 =>
      simp only [Option.getD_some]
      exact le_of_lt (hs q0 rfl).1
  have hqm : ∀ m, mo = some m → s.getD 0 ≤ m := by
    intro m hm
    cases s with
    | none => simpa using le_of_lt (hmax m hm)
    | some q0 => simpa using (hs q0 rfl).2 m hm
  cases a with
  | increment =>
    cases mo with
    | none =>
      intro q hq
      simp only [selStep, min_self, Option.some.injEq] at hq
      refine ⟨?_, ?_⟩
      · rw [← hq]; linarith
      · intro m hm; exact absurd hm (by simp)
    | some m =>
      intro q hq
      simp only [selStep, Option.some.injEq] at hq
      have hmpos := hmax m rfl
      refine ⟨?_, ?_⟩
      · rw [← hq]
        exact lt_min (by linarith) hmpos
      · intro m' hm'
        injection hm' with hm'
        subst hm'
        rw [← hq]
        exact min_le_right _ _
  | decrement =>
    intro q hq
    simp only [selStep] at hq
    by_cases hz : max 0 (s.getD 0 - 1) = (0 : ℚ)
    · rw [if_pos hz] at hq
      exact absurd hq (by simp)
    · rw [if_neg hz] at hq
      injection hq with hq
      refine ⟨?_, ?_⟩
      · rw [← hq]
        exact lt_of_le_of_ne (le_max_left _ _) (fun h => hz h.symm)
      · intro m hm
        rw [← hq]
        have hle := hqm m hm
        have hmpos := hmax m hm
        exact max_le (le_of_lt hmpos) (by linarith)
  | setQuantity v =>
    have hsafe := jsSafeQty_nonneg v
    cases mo with
    | none =>
      intro q hq
      simp only [selStep, min_self] at hq
      by_cases hz : jsSafeQty v = 0
      · rw [if_pos hz] at hq
        exact absurd hq (by simp)
      · rw [if_neg hz] at hq
        injection hq with hq
        refine ⟨?_, ?_⟩
        · rw [← hq]
          exact lt_of_le_of_ne hsafe (fun h => hz h.symm)
        · intro m hm; exact absurd hm (by simp)
    | some m =>
      have hmpos := hmax m rfl
      intro q hq
      simp only [selStep] at hq
      by_cases hz : min (jsSafeQty v) m = (0 : ℚ)
      · rw [if_pos hz] at hq
        exact absurd hq (by simp)
      · rw [if_neg hz] at hq
        injection hq with hq
        refine ⟨?_, ?_⟩
        · rw [← hq]
          exact lt_of_le_of_ne (le_min hsafe (le_of_lt hmpos)) (fun h => hz h.symm)
        · intro m' hm'
          injection hm' with hm'
          subst hm'
          rw [← hq]
          exact min_le_right _ _

/-- C7: the claim says set-quantity parses its raw input to a non-negative
integer.  The code disagrees: `Number('2.5')` is `2.5`, which is finite and
non-negative, so the handler stores the fractional quantity 5/2 (here under a
max-per-order of 5). -/
theorem setQuantity_stores_fractional :
    setQuantityRaw (some 5) "2.5" none = some ((5 : ℚ) / 2) ∧
      ((5 : ℚ) / 2).den ≠ 1 := by
  have htrim : jsTrim "2.5" = "2.5" := by decide
  have hparse : jsNumberParse "2.5" =
      some (((2 : ℕ) : ℚ) + ((5 : ℕ) : ℚ) / (10 : ℚ) ^ (1 : ℕ)) := rfl
  have h52 : (((2 : ℕ) : ℚ) + ((5 : ℕ) : ℚ) / (10 : ℚ) ^ (1 : ℕ)) = (5 : ℚ) / 2 := by
    push_cast
    norm_num
  constructor
  · show selStep (some 5) none
      (SelAction.setQuantity (jsNumberParse (jsTrim "2.5"))) = some ((5 : ℚ) / 2)
    rw [htrim, hparse, h52]
    simp only [selStep, jsSafeQty]
    norm_num [min_def]
  · norm_num

/-- C7 (amended): for every sequence of increment/decrement/set-quantity
actions on an offer whose max-per-order, when defined, is positive, a stored
quantity is a positive (not necessarily integral) number that is at most the
max-per-order when one is defined — in particular it is never negative, and a
zero result removes the entry instead of being stored.  The set-quantity
action carries the parsed JS number, with unparseable input as `none`
(treated as 0 by `jsSafeQty`, like any negative input). -/
theorem selection_invariant :
    ∀ (maxPerOrder : Option ℚ),
      (∀ m, maxPerOrder = some m → 0 < m) →
      ∀ (acts : List SelAction) (q : ℚ),
        acts.foldl (selStep maxPerOrder) none = some q →
        0 < q ∧ ∀ m, maxPerOrder = some m → q ≤ m := by
  intro mo hmax acts
  have h : ∀ s : Option ℚ, SelInv mo s → SelInv mo (acts.foldl (selStep mo) s) := by
    induction acts with
    | nil => intro s hs; exact hs
    | cons a rest ih =>
      intro s hs
      exact ih (selStep mo s a) (selStep_preserves mo hmax s hs a)
  intro q hq
  exact h none (by intro q h; exact absurd h (by simp)) q hq

/-- Witness for `selection_invariant`: one increment under max-per-order 3
stores quantity 1, which is positive and at most 3. -/
theorem selection_invariant_witness :
    (0 : ℚ) < 1 ∧ ∀ m, (some (3 : ℚ) : Option ℚ) = some m → (1 : ℚ) ≤ m :=
  selection_invariant (some 3)
    (by intro m hm; injection hm with hm; rw [← hm]; norm_num)
    [SelAction.increment] 1
    (by simp only [List.foldl, selStep]; norm_num [min_def])

/-- C9: the claim says every request is answered with 403 or by a file whose
resolved path lies within the public root.  The code disagrees: the
containment check is a plain string-prefix test against a root with no
trailing separator, so the request path `/%2e%2e%2Fpublic-evil/secret.txt`
(whose one segment survives WHATWG URL parsing and percent-decodes to
`/../public-evil/secret.txt`) resolves to a sibling directory
`/srv/app/public-evil` that passes the prefix check, and the file outside the
root is streamed. -/
theorem serveStatic_escapes_root :
    serveStaticPath "/srv/app/public" "/%2e%2e%2Fpublic-evil/secret.txt" =
        ServeOutcome.serve "/srv/app/public-evil/secret.txt" ∧
      withinRoot "/srv/app/public" "/srv/app/public-evil/secret.txt" = false := by
  constructor
  · decide
  · decide

theorem jsReplaceChar_append (pat : Char) (rep : List Char) (a b : List Char) :
    jsReplaceChar pat rep (a ++ b) = jsReplaceChar pat rep a ++ jsReplaceChar pat rep b := by
  simp [jsReplaceChar]

theorem escapeHtmlData_append (a b : List Char) :
    escapeHtmlData (a ++ b) = escapeHtmlData a ++ escapeHtmlData b := by
  simp [escapeHtmlData, jsReplaceChar_append]

theorem escapeHtmlData_single (c : Char) : escapeHtmlData [c] = escChar c := by
  by_cases h1 : c = '&'
  · subst h1; decide
  · by_cases h2 : c = '<'
    · subst h2; decide
    · by_cases h3 : c = '>'
      · subst h3; decide
      · by_cases h4 : c = dquote
        · subst h4; decide
        · by_cases h5 : c = squote
          · subst h5; decide
          · simp [escapeHtmlData, jsReplaceChar, escChar, h1, h2, h3, h4, h5]

theorem escapeHtmlData_eq_bind (s : List Char) :
    escapeHtmlData s = s.flatMap escChar := by
  induction s with
  | nil => decide
  | cons c rest ih =>
    have : (c :: rest) = [c] ++ rest := rfl
    rw [this, escapeHtmlData_append, escapeHtmlData_single, ih]
    simp

theorem escChar_all_noRaw (c : Char) : (escChar c).all noRawChar = true := by
  by_cases h1 : c = '&'
  · subst h1; decide
  · by_cases h2 : c = '<'
    · subst h2; decide
    · by_cases h3 : c = '>'
      · subst h3; decide
      · by_cases h4 : c = dquote
        · subst h4; decide
        · by_cases h5 : c = squote
          · subst h5; decide
          · simp [escChar, noRawChar, h1, h2, h3, h4, h5]

theorem ampersandsEscaped_escChar_append (c : Char) (t : List Char) :
    ampersandsEscaped (escChar c ++ t) = ampersandsEscaped t := by
  by_cases h1 : c = '&'
  · subst h1
    show ampersandsEscaped ("&amp;".data ++ t) = ampersandsEscaped t
    simp [ampersandsEscaped, entityTails, List.isPrefixOf]
  · by_cases h2 : c = '<'
    · subst h2
      show ampersandsEscaped ("&lt;".data ++ t) = ampersandsEscaped t
      simp [ampersandsEscaped, entityTails, List.isPrefixOf]
    · by_cases h3 : c = '>'
      · subst h3
        show ampersandsEscaped ("&gt;".data ++ t) = ampersandsEscaped t
        simp [ampersandsEscaped, entityTails, List.isPrefixOf]
      · by_cases h4 : c = dquote
        · subst h4
          show ampersandsEscaped ("&quot;".data ++ t) = ampersandsEscaped t
          simp [ampersandsEscaped, entityTails, List.isPrefixOf]
        · by_cases h5 : c = squote
          · subst h5
            show ampersandsEscaped ("&#039;".data ++ t) = ampersandsEscaped t
            simp [ampersandsEscaped, entityTails, List.isPrefixOf]
          · show ampersandsEscaped (escChar c ++ t) = ampersandsEscaped t
            simp [escChar, h1, h2, h3, h4, h5, ampersandsEscaped]

/-- C10: every output of `escapeHtml` is exactly the character-wise entity
substitution (each special character replaced by its HTML entity), contains
no raw `<`, `>`, `"` or `'`, and every `&` in it begins one of the five
introduced entities — so interpolated remote strings can neither open a tag
nor escape a quoted attribute. -/
theorem escapeHtml_output_safe :
    ∀ s : String,
      escapeHtml s = String.mk (s.data.flatMap escChar) ∧
        (escapeHtml s).data.all noRawChar = true ∧
        ampersandsEscaped (escapeHtml s).data = true := by
  intro s
  refine ⟨by rw [escapeHtml, escapeHtmlData_eq_bind], ?_, ?_⟩
  · show (escapeHtmlData s.data).all noRawChar = true
    rw [escapeHtmlData_eq_bind]
    induction s.data with
    | nil => decide
    | cons c rest ih =>
      rw [List.flatMap_cons, List.all_append]
      rw [escChar_all_noRaw, ih]
      rfl
  · show ampersandsEscaped (escapeHtmlData s.data) = true
    rw [escapeHtmlData_eq_bind]
    induction s.data with
    | nil => decide
    | cons c rest ih =>
      rw [List.flatMap_cons, ampersandsEscaped_escChar_append, ih]

end OverlayWidget
